import Mathlib

/-!
Verification of the chatroom repository's relay-and-history subsystem.

Shallow embedding of:
  * the file-based history store (`src/history_io.py`, `src/message_history.py`);
  * the Postgres-backed history store query (`src/chatroom_prototype/history_io.py`);
  * the `ChatMessage` pydantic model (`src/chatroom_prototype/models.py`);
  * the websocket gateway validation and teardown (`src/chatroom_prototype/app.py`,
    `src/app.py`);
  * the history worker's persistence handler, room-discovery handler and
    startup retry loop (`src/chatroom_prototype/message_history_service.py`,
    `src/message_history_service.py`).

Python `datetime` values carried in ISO-8601 strings are modelled by a pair of
the denoted UTC instant and the written timezone offset: two strings denote the
same instant iff the instants agree, and a string is "in UTC" iff the offset is
zero.  JSON (de)serialisation of a message dict (`json.dumps` / `json.loads`)
is modelled as the identity on decodable lines: a line of the history file
is either blank, malformed (rejected by `json.loads`), or carries a message.
-/

/-- Python `str.strip()` with no argument: remove whitespace from both ends
(restricted to ASCII whitespace, which is all the system's inputs contain).
Written over the character list so that it evaluates inside the kernel. -/
def pyStrip (s : String) : String :=
  String.mk (((s.data.dropWhile Char.isWhitespace).reverse.dropWhile Char.isWhitespace).reverse)

/-- Digit-string to number: `none` unless the character list is nonempty and
all decimal digits. -/
def parseDigits (cs : List Char) : Option Nat :=
  match cs with
  | [] => none
  | _ =>
    cs.foldl
      (fun acc c =>
        acc.bind (fun n => if c.isDigit then some (n * 10 + (c.toNat - 48)) else none))
      (some 0)

/-- Python `int(s)` on a string, `none` when it raises `ValueError`:
surrounding whitespace is allowed, then an optional sign, then a nonempty
run of decimal digits. -/
def pyInt? (s : String) : Option Int :=
  match (pyStrip s).data with
  | '-' :: rest => (parseDigits rest).map (fun n => -(n : Int))
  | '+' :: rest => (parseDigits rest).map (fun n => (n : Int))
  | rest => (parseDigits rest).map (fun n => (n : Int))

/-- A timestamp as written in an ISO-8601 string: the UTC instant it denotes
(in seconds) together with the timezone offset (in minutes) it is written
with.  `datetime.now(timezone.utc)` produces offset `0`. -/
structure Timestamp where
  utcSeconds : Int
  offsetMinutes : Int
deriving DecidableEq, Repr

/-- `dt.astimezone(timezone.utc)`: same instant, offset forced to zero
(spec section 3: "always normalized to UTC before persistence"). -/
def normalizeUTC (t : Timestamp) : Timestamp :=
  { utcSeconds := t.utcSeconds, offsetMinutes := 0 }

/-- A timestamp string is in UTC iff its written offset is zero. -/
def Timestamp.isUTC (t : Timestamp) : Prop := t.offsetMinutes = 0

instance (t : Timestamp) : Decidable t.isUTC := by
  unfold Timestamp.isUTC; infer_instance

/-- The message dict exchanged on the bus and persisted by the history store,
restricted to the fields the system itself produces and the spec names
(`type`, `serverId`, `username`, `text`, `event`, `timestamp`). -/
structure MessageData where
  type : Option String
  serverId : Option Int
  username : Option String
  text : Option String
  event : Option String
  timestamp : Option Timestamp
deriving DecidableEq, Repr

/-- One line of a `server_<id>_history.jsonl` file: blank (empty after
`line.strip()`), malformed (nonblank but rejected by `json.loads`), or a
decodable message line (`json.dumps` output is always nonblank and decodable,
so `Line.valid` is what `save_message` appends). -/
inductive Line where
  | blank : Line
  | malformed : String → Line
  | valid : MessageData → Line
deriving DecidableEq, Repr

/-- `json.loads` on a stripped nonblank line, `None` when it raises
`JSONDecodeError` (the `except` branch that `continue`s). -/
def parseLine : Line → Option MessageData
  | Line.blank => none
  | Line.malformed _ => none
  | Line.valid m => some m

/-- A raised Python exception, as a value. -/
inductive PyError where
  | exn : PyError
  | attributeError : PyError
  | unicodeDecodeError : PyError
deriving DecidableEq, Repr

/-- The non-raising outcomes of opening and reading one room's history file:
the file does not exist (`not history_file.exists()`), reading raises
`IOError` (caught), or iteration completes and yields the file's lines.
This is the domain of the loop bodies of `get_messages` and
`get_message_count`; the fourth possible outcome — the text-mode UTF-8
stream hitting undecodable bytes, which RAISES out of both functions — is
modelled by `FileRead` below. -/
inductive ReadResult where
  | missing : ReadResult
  | ioError : ReadResult
  | content : List Line → ReadResult

/-- The decoded message list built by the read loop of
`MessageHistory.get_messages`: strip each line, skip blanks, skip lines
`json.loads` rejects, keep the rest in file order. -/
def decodedMessages (lines : List Line) : List MessageData :=
  lines.filterMap parseLine

/-- `MessageHistory.get_messages` (src/history_io.py lines 25-44,
src/message_history.py lines 38-72): missing file or `IOError` gives `[]`;
otherwise decode the lines and, when `limit` is truthy (not `None`, not `0`)
and fewer than `len(messages)`, keep `messages[-limit:]`. -/
def get_messages (file : ReadResult) (limit : Option Nat) : List MessageData :=
  match file with
  | ReadResult.missing => []
  | ReadResult.ioError => []
  | ReadResult.content lines =>
    match limit with
    | none => decodedMessages lines
    | some l =>
      if l ≠ 0 ∧ (decodedMessages lines).length > l then
        (decodedMessages lines).drop ((decodedMessages lines).length - l)
      else
        decodedMessages lines

/-- The timestamp-defaulting step of `MessageHistory.save_message`
(src/history_io.py lines 19-20, src/message_history.py lines 29-30): if the
dict has no `"timestamp"` key, set it to
`datetime.now(timezone.utc).isoformat()`, a UTC-offset stamp of the current
instant `nowSec`; a dict that already has one is left untouched. -/
def withDefaultTimestamp (nowSec : Int) (m : MessageData) : MessageData :=
  if m.timestamp = none then
    { m with timestamp := some { utcSeconds := nowSec, offsetMinutes := 0 } }
  else m

/-- `MessageHistory.save_message` (src/history_io.py lines 18-23,
src/message_history.py lines 21-36): default the timestamp, then append the
dict to the room's file as one JSONL line. -/
def save_message (nowSec : Int) (file : List Line) (m : MessageData) : List Line :=
  file ++ [Line.valid (withDefaultTimestamp nowSec m)]

/-- `MessageHistory.get_message_count` (src/message_history.py lines 90-113,
src/history_io.py lines 53-65): 0 when the file is missing or reading raises
`IOError`; otherwise the number of lines that are nonblank after `strip()`
(malformed lines are counted too — only blanks are skipped). -/
def get_message_count (file : ReadResult) : Nat :=
  match file with
  | ReadResult.missing => 0
  | ReadResult.ioError => 0
  | ReadResult.content lines =>
    (lines.filter (fun l => l ≠ Line.blank)).length

/-- The full outcome of opening and iterating one room's history file, with
the raising path included: the files are opened in text mode with
`encoding="utf-8"`, so iterating a file whose bytes are not valid UTF-8
raises `UnicodeDecodeError` — a `ValueError`, NOT caught by the
`except IOError` in either read function — after some prefix `read` of
successfully decoded lines. -/
inductive FileRead where
  | missing : FileRead
  | ioError : FileRead
  | decoded : List Line → FileRead
  | undecodable : List Line → FileRead

/-- `MessageHistory.get_messages` as actually invoked, raising path
included: on `FileRead.undecodable` the loop's `UnicodeDecodeError` escapes
(the lines accumulated before the bad bytes are discarded with it); the
other outcomes return as in `get_messages`. -/
def get_messages_io (file : FileRead) (limit : Option Nat) :
    Except PyError (List MessageData) :=
  match file with
  | FileRead.missing => Except.ok []
  | FileRead.ioError => Except.ok []
  | FileRead.decoded lines => Except.ok (get_messages (ReadResult.content lines) limit)
  | FileRead.undecodable _ => Except.error PyError.unicodeDecodeError

/-- `MessageHistory.get_message_count` as actually invoked, raising path
included: `UnicodeDecodeError` likewise escapes the counting loop. -/
def get_message_count_io (file : FileRead) : Except PyError Nat :=
  match file with
  | FileRead.missing => Except.ok 0
  | FileRead.ioError => Except.ok 0
  | FileRead.decoded lines => Except.ok (get_message_count (ReadResult.content lines))
  | FileRead.undecodable _ => Except.error PyError.unicodeDecodeError

/-! ## Postgres-backed history store (`src/chatroom_prototype/history_io.py`) -/

/-- One row of the `messages` table, restricted to the columns the
`get_messages` query touches: the `server_id` filter column, the `timestamp`
`TIMESTAMPTZ` column (a `timestamptz` stores only the instant, so ordering
compares `utcSeconds`), and the `raw_data` JSONB payload (`json.dumps` of the
saved dict, returned verbatim by the query). -/
structure PgRow where
  server_id : Int
  ts : Timestamp
  raw : MessageData
deriving DecidableEq, Repr

/-- `ORDER BY timestamp ASC`: rows compare by the instant their
`timestamptz` denotes. -/
def pgLe (a b : PgRow) : Prop := a.ts.utcSeconds ≤ b.ts.utcSeconds

instance : DecidableRel pgLe := fun a b => by
  unfold pgLe; infer_instance

instance : IsTotal PgRow pgLe :=
  ⟨fun a b => Int.le_total a.ts.utcSeconds b.ts.utcSeconds⟩

instance : IsTrans PgRow pgLe :=
  ⟨fun _ _ _ h1 h2 => le_trans h1 h2⟩

/-- `MessageHistory.get_messages` (src/chatroom_prototype/history_io.py
lines 85-99): `SELECT raw_data FROM messages WHERE server_id = $1
ORDER BY timestamp ASC LIMIT $2`, decoding each returned `raw_data`.
`LIMIT NULL` (Python `None`) means no limit. -/
def pgRows (table : List PgRow) (server_id : Int) : List PgRow :=
  List.insertionSort pgLe (table.filter (fun r => r.server_id = server_id))

/-- (Continuation of the `get_messages` query doc above.) The query's result
rows: the table filtered by `server_id` and ordered by `timestamp ASC`, cut
to `LIMIT`, each row contributing its `raw_data`. -/
def pg_get_messages (table : List PgRow) (server_id : Int) (limit : Option Nat) :
    List MessageData :=
  match limit with
  | none => (pgRows table server_id).map (fun r => r.raw)
  | some l => ((pgRows table server_id).take l).map (fun r => r.raw)

/-- The row `MessageHistory.save_message`
(src/chatroom_prototype/history_io.py lines 54-83) inserts: the `timestamp`
column gets the dict's timestamp normalized to a datetime — the supplied
instant when present (`fromisoformat` preserves the denoted instant), the
current instant `nowSec` when absent or unparsable — while `raw_data` gets
`json.dumps(message_data)` of the UNMUTATED dict: the dict itself is never
changed, so an absent timestamp stays absent in the stored payload. -/
def savedPgRow (nowSec : Int) (server_id : Int) (m : MessageData) : PgRow :=
  { server_id := server_id,
    ts := m.timestamp.getD { utcSeconds := nowSec, offsetMinutes := 0 },
    raw := m }

/-- `MessageHistory.save_message` (src/chatroom_prototype/history_io.py
lines 54-83): `INSERT INTO messages ...` appends one row to the table. -/
def pg_save_message (nowSec : Int) (table : List PgRow) (server_id : Int)
    (m : MessageData) : List PgRow :=
  table ++ [savedPgRow nowSec server_id m]

/-! ## The `ChatMessage` pydantic model (`src/chatroom_prototype/models.py`) -/

/-- The validated `ChatMessage` pydantic model: `type`, `serverId`,
optional `username`, optional `text`, optional `event`, and a `timestamp`
defaulting to the construction instant. -/
structure ChatMessage where
  type : String
  serverId : Int
  username : Option String
  text : Option String
  event : Option String
  timestamp : Timestamp
deriving DecidableEq, Repr

/-- The `_trim_text` field validator (models.py lines 22-28): `None` passes
through; otherwise `strip()`, and an empty result becomes `None`. -/
def trim_text (v : Option String) : Option String :=
  match v with
  | none => none
  | some s =>
    let t := pyStrip s
    if t = "" then none else some t

/-- Constructing a `ChatMessage` (models.py lines 14-32): the `_trim_text`
validator runs on `text` only; `username` and `event` have no validator;
`timestamp` uses the `default_factory` instant `now` when not supplied. -/
def mkChatMessage (type : String) (serverId : Int) (username : Option String)
    (text : Option String) (event : Option String) (tsArg : Option Timestamp)
    (now : Timestamp) : ChatMessage :=
  { type := type
    serverId := serverId
    username := username
    text := trim_text text
    event := event
    timestamp := tsArg.getD now }

/-! ## Gateway websocket endpoint: validation phase and teardown
(`src/chatroom_prototype/app.py`, `src/app.py`) -/

/-- Outcome of the validation phase of `websocket_endpoint`. -/
inductive ValidateResult where
  | reject : ValidateResult
  | proceed : String → ValidateResult
deriving DecidableEq, Repr

/-- The validation phase of `websocket_endpoint`
(src/chatroom_prototype/app.py lines 145-157, src/app.py lines 81-93):
look up the room (`get_server_by_id`); absent room rejects; then the
`username` query parameter must be present and nonblank after `strip()`,
else reject; on success the session continues with the stripped username. -/
def validate (roomFound : Bool) (usernameParam : Option String) : ValidateResult :=
  if roomFound = false then ValidateResult.reject
  else
    match usernameParam with
    | none => ValidateResult.reject
    | some u =>
      if pyStrip u = "" then ValidateResult.reject else ValidateResult.proceed (pyStrip u)

/-- Externally visible steps of `websocket_endpoint`, at the granularity
claim C5 is about: the room-directory lookup, a close with a code, the
transport accept, and bus or store side effects. -/
inductive Effect where
  | roomLookup : Effect
  | close : Nat → Effect
  | accept : Effect
  | busSubscribe : String → Effect
  | busPublish : String → Effect
  | storeQuery : Effect
deriving DecidableEq, Repr

/-- The effect trace of `websocket_endpoint` through its validation phase
(src/chatroom_prototype/app.py lines 143-159, src/app.py lines 79-95): look
the room up; if absent, `websocket.close(code=1008)` and return; if the
`username` parameter is `None` or blank after `strip()`, `close(code=1008)`
and return; otherwise accept the handshake and continue as `rest` applied to
the stripped username (the post-validation session — bus acquisition,
subscription, history send, publishes and teardown — is abstracted into
`rest`, since the claims settled on this definition concern only the
rejecting paths, which return before any of it runs). -/
def websocket_endpoint (roomFound : Bool) (usernameParam : Option String)
    (rest : String → List Effect) : List Effect :=
  match validate roomFound usernameParam with
  | ValidateResult.reject => [Effect.roomLookup, Effect.close 1008]
  | ValidateResult.proceed u => Effect.roomLookup :: Effect.accept :: rest u

/-- The four teardown blocks of the `finally` clause of `websocket_endpoint`
(src/chatroom_prototype/app.py lines 230-252, src/app.py lines 140-166), in
source order. -/
inductive CloseStep where
  | publishLeave : CloseStep
  | flushBus : CloseStep
  | unsubscribeRoom : CloseStep
  | cancelSender : CloseStep
deriving DecidableEq, Repr

/-- One teardown block attempted: it performs its step and then either
returns or raises, according to the fault assignment `fails`. -/
def attemptStep (s : CloseStep) (fails : Bool) : Except PyError (List CloseStep) :=
  if fails then Except.error PyError.exn else Except.ok [s]

/-- `try: <block> except Exception: pass` around one teardown block: the
step was attempted either way, and an exception is swallowed. -/
def tryExceptPass (s : CloseStep) (fails : Bool) : Except PyError (List CloseStep) :=
  match attemptStep s fails with
  | Except.ok t => Except.ok t
  | Except.error _ => Except.ok [s]

/-- The `finally` clause of `websocket_endpoint`: publish the `leave` system
event, `nc.flush(timeout=1)`, `sub.unsubscribe()`, `sender_task.cancel()`,
each wrapped in its own `try/except Exception: pass`, run one after the other
with no early return.  The fault assignment says which blocks raise
internally.  The result collects the attempted steps in order; an
`Except.error` result would mean the teardown itself raised. -/
def closing_teardown (publishFails flushFails unsubFails cancelFails : Bool) :
    Except PyError (List CloseStep) := do
  let t1 ← tryExceptPass CloseStep.publishLeave publishFails
  let t2 ← tryExceptPass CloseStep.flushBus flushFails
  let t3 ← tryExceptPass CloseStep.unsubscribeRoom unsubFails
  let t4 ← tryExceptPass CloseStep.cancelSender cancelFails
  return t1 ++ t2 ++ t3 ++ t4

/-! ## History worker (`src/chatroom_prototype/message_history_service.py`,
`src/message_history_service.py`) -/

/-- A decoded JSON value, as returned by `json.loads`. -/
inductive JValue where
  | jnull : JValue
  | jbool : Bool → JValue
  | jint : Int → JValue
  | jstr : String → JValue
  | jarr : List JValue → JValue
  | jobj : List (String × JValue) → JValue

/-- A bus payload as the handler sees it: either bytes that
`msg.data.decode("utf-8")` / `json.loads` reject (raising
`UnicodeDecodeError` or `JSONDecodeError`), or bytes decoding to a JSON
value. -/
inductive Payload where
  | notJson : Payload
  | json : JValue → Payload

/-- `json.loads(msg.data.decode("utf-8"))` with both decode exceptions
reflected as `none`. -/
def decodePayload : Payload → Option JValue
  | Payload.notJson => none
  | Payload.json v => some v

/-- Python `dict.get(key)`: the first binding for the key, else `None`. -/
def dictGet (fields : List (String × JValue)) (key : String) : Option JValue :=
  match fields.find? (fun kv => kv.fst = key) with
  | some kv => some kv.snd
  | none => none

/-- Python `isinstance(v, int)` on a JSON-decoded value: JSON integers, and
also JSON booleans, since Python `bool` is a subclass of `int`. -/
def pyIsInt : JValue → Bool
  | JValue.jint _ => true
  | JValue.jbool _ => true
  | _ => false

/-- What the persistence handler did with one payload. -/
inductive HandlerOutcome where
  | skippedDecode : HandlerOutcome
  | skippedServerId : HandlerOutcome
  | saved : HandlerOutcome
  | saveFailed : HandlerOutcome
deriving DecidableEq, Repr

/-- The persistence handler of the history worker
(src/chatroom_prototype/message_history_service.py lines 54-75,
src/message_history_service.py lines 58-70): decode the payload, returning
on `UnicodeDecodeError` / `JSONDecodeError`; read `data.get("serverId")` —
on a decoded value that is not a dict this attribute access raises
`AttributeError`, which nothing catches; skip unless the value satisfies
`isinstance(_, int)`; otherwise attempt the store append inside
`try/except Exception`, so an append failure (`saveOk = false`) is reported
but not propagated. -/
def handler (saveOk : Bool) (p : Payload) : Except PyError HandlerOutcome :=
  match decodePayload p with
  | none => Except.ok HandlerOutcome.skippedDecode
  | some data =>
    match data with
    | JValue.jobj fields =>
      match dictGet fields "serverId" with
      | some v =>
        if pyIsInt v then
          Except.ok (if saveOk then HandlerOutcome.saved else HandlerOutcome.saveFailed)
        else
          Except.ok HandlerOutcome.skippedServerId
      | none => Except.ok HandlerOutcome.skippedServerId
    | _ => Except.error PyError.attributeError

/-- The worker's room-discovery state: the `active_room_subs` dict from room
id to the live subscription (subscriptions numbered by creation order), plus
the next fresh subscription number.  Python dicts keep insertion order, so
the dict is an association list to which new keys are appended. -/
structure WorkerState where
  subs : List (Int × Nat)
  nextSub : Nat
deriving DecidableEq, Repr

/-- The worker's state at startup: no rooms watched. -/
def initWorkerState : WorkerState := { subs := [], nextSub := 0 }

/-- `subject.rsplit(".", 1)[-1]` then `int(...)`, with the `except` branch
reflected as `none`: the text after the last dot (the whole subject when it
has no dot), parsed as a Python integer literal. -/
def parseWatchSubject (subject : String) : Option Int :=
  pyInt? (String.mk ((subject.data.reverse.takeWhile (fun c => c ≠ '.')).reverse))

/-- The discovery handler `watch_handler`
(src/chatroom_prototype/message_history_service.py lines 80-91): parse the
room id out of the `chat.history.watch.<id>` subject, returning on a parse
failure; return if the id is already a key of `active_room_subs`; otherwise
subscribe to the room channel and record the new subscription under the id. -/
def watch_handler (st : WorkerState) (subject : String) : WorkerState :=
  match parseWatchSubject subject with
  | none => st
  | some sid =>
    if sid ∈ st.subs.map Prod.fst then st
    else { subs := st.subs ++ [(sid, st.nextSub)], nextSub := st.nextSub + 1 }

/-- The DB-init retry loop at the top of `run_service`
(src/chatroom_prototype/message_history_service.py lines 40-49):
`attempt = 0; while True: try: init; break; except: attempt += 1;
sleep(min(5 * attempt, 30))`.  `storeFails i` says whether the `(i+1)`-th
`init()` call raises; `attempt` is the counter's value at loop entry; `fuel`
bounds the number of iterations modelled, since the loop itself never gives
up.  The result is the list of sleep durations performed before init finally
succeeds, or `none` when it has not succeeded within `fuel` iterations. -/
def init_retry (storeFails : Nat → Bool) : Nat → Nat → Option (List Nat)
  | 0, _ => none
  | fuel + 1, attempt =>
    if storeFails attempt then
      match init_retry storeFails fuel (attempt + 1) with
      | none => none
      | some ds => some (min (5 * (attempt + 1)) 30 :: ds)
    else
      some []

/-! ## Shared helper lemmas and sample data -/

/-- `filterMap` ignores the elements its function rejects: filtering them
away first changes nothing. -/
theorem filterMap_filter_isSome {α β : Type} (f : α → Option β) :
    ∀ (l : List α), (l.filter (fun x => (f x).isSome)).filterMap f = l.filterMap f := by
  intro l
  induction l with
  | nil => rfl
  | cons a l ih =>
    by_cases h : (f a).isSome
    · cases hfa : f a with
      | none => rw [hfa] at h; simp at h
      | some b => simp [List.filter_cons, h, List.filterMap_cons, hfa, ih]
    · cases hfa : f a with
      | none => simp [List.filter_cons, h, List.filterMap_cons, hfa, ih]
      | some b => rw [hfa] at h; simp at h

/-- Dropping fewer elements than the length leaves the last element. -/
theorem getLast?_drop_of_lt {α : Type} (k : Nat) (l : List α) (h : k < l.length) :
    (l.drop k).getLast? = l.getLast? := by
  obtain ⟨t, ht⟩ := List.drop_suffix k l
  have hne : l.drop k ≠ [] := by
    have hlen := List.length_drop k l
    intro hnil
    rw [hnil] at hlen
    simp at hlen
    omega
  calc (l.drop k).getLast? = (t ++ l.drop k).getLast? :=
        (List.getLast?_append_of_ne_nil t hne).symm
    _ = l.getLast? := by rw [ht]

/-- The room ids currently watched by the worker. -/
def subKeys (st : WorkerState) : List Int := st.subs.map Prod.fst

theorem watch_handler_noparse (st : WorkerState) (s : String)
    (h : parseWatchSubject s = none) : watch_handler st s = st := by
  unfold watch_handler
  rw [h]

theorem watch_handler_parsed (st : WorkerState) (s : String) (sid : Int)
    (h : parseWatchSubject s = some sid) :
    watch_handler st s =
      if sid ∈ st.subs.map Prod.fst then st
      else { subs := st.subs ++ [(sid, st.nextSub)], nextSub := st.nextSub + 1 } := by
  unfold watch_handler
  rw [h]

theorem subKeys_nodup_watch (st : WorkerState) (s : String)
    (h : (subKeys st).Nodup) : (subKeys (watch_handler st s)).Nodup := by
  unfold watch_handler
  cases hp : parseWatchSubject s with
  | none => exact h
  | some sid =>
    by_cases hmem : sid ∈ st.subs.map Prod.fst
    · simpa [hmem] using h
    · simp only [hmem, if_false]
      have : subKeys { subs := st.subs ++ [(sid, st.nextSub)], nextSub := st.nextSub + 1 }
          = subKeys st ++ [sid] := by
        simp [subKeys]
      rw [this]
      rw [(List.perm_append_singleton sid (subKeys st)).nodup_iff, List.nodup_cons]
      exact ⟨hmem, h⟩

theorem mem_subKeys_watch_of_mem (st : WorkerState) (s : String) (R : Int)
    (h : R ∈ subKeys st) : R ∈ subKeys (watch_handler st s) := by
  unfold watch_handler
  cases hp : parseWatchSubject s with
  | none => exact h
  | some sid =>
    by_cases hmem : sid ∈ st.subs.map Prod.fst
    · simpa [hmem] using h
    · simp only [hmem, if_false]
      simp only [subKeys, List.map_append, List.mem_append]
      exact Or.inl h

theorem mem_subKeys_watch_of_parse (st : WorkerState) (s : String) (R : Int)
    (h : parseWatchSubject s = some R) : R ∈ subKeys (watch_handler st s) := by
  rw [watch_handler_parsed st s R h]
  by_cases hmem : R ∈ st.subs.map Prod.fst
  · rw [if_pos hmem]
    exact hmem
  · rw [if_neg hmem]
    simp [subKeys]

theorem subKeys_nodup_foldl (subjects : List String) :
    ∀ (st : WorkerState), (subKeys st).Nodup →
      (subKeys (subjects.foldl watch_handler st)).Nodup := by
  induction subjects with
  | nil => intro st h; exact h
  | cons a rest ih =>
    intro st h
    exact ih (watch_handler st a) (subKeys_nodup_watch st a h)

theorem mem_subKeys_foldl_of_mem (subjects : List String) :
    ∀ (st : WorkerState) (R : Int), R ∈ subKeys st →
      R ∈ subKeys (subjects.foldl watch_handler st) := by
  induction subjects with
  | nil => intro st R h; exact h
  | cons a rest ih =>
    intro st R h
    exact ih (watch_handler st a) R (mem_subKeys_watch_of_mem st a R h)

theorem mem_subKeys_foldl_of_parse (subjects : List String) :
    ∀ (st : WorkerState) (R : Int),
      (∃ s, s ∈ subjects ∧ parseWatchSubject s = some R) →
      R ∈ subKeys (subjects.foldl watch_handler st) := by
  induction subjects with
  | nil =>
    intro st R h
    obtain ⟨s, hs, _⟩ := h
    simp at hs
  | cons a rest ih =>
    intro st R h
    obtain ⟨s, hs, hp⟩ := h
    rcases List.mem_cons.mp hs with heq | hmem
    · subst heq
      exact mem_subKeys_foldl_of_mem rest (watch_handler st s) R
        (mem_subKeys_watch_of_parse st s R hp)
    · exact ih (watch_handler st a) R ⟨s, hmem, hp⟩

/-- Sample message: alice's from instant 0, stamped in UTC. -/
def mA : MessageData :=
  { type := some "message", serverId := some 1, username := some "alice",
    text := some "hello", event := none,
    timestamp := some { utcSeconds := 0, offsetMinutes := 0 } }

/-- Sample message: bob's from the later instant 10, stamped in UTC. -/
def mB : MessageData :=
  { type := some "message", serverId := some 1, username := some "bob",
    text := some "hi", event := none,
    timestamp := some { utcSeconds := 10, offsetMinutes := 0 } }

/-- A timestamp written with a +05:00 offset: instant 0, offset 300 min. -/
def tsPlus5 : Timestamp := { utcSeconds := 0, offsetMinutes := 300 }

/-- Sample message carrying the non-UTC timestamp `tsPlus5`. -/
def mC : MessageData :=
  { type := some "message", serverId := some 1, username := some "alice",
    text := some "hi", event := none, timestamp := some tsPlus5 }

/-- The UTC instant-0 timestamp. -/
def ts0 : Timestamp := { utcSeconds := 0, offsetMinutes := 0 }

/-- Sample message with no timestamp supplied by the producer. -/
def mNoTs : MessageData :=
  { type := some "message", serverId := some 1, username := some "carol",
    text := some "hey", event := none, timestamp := none }

/-- `mA` stored for room 1 at instant 0. -/
def pgRowA : PgRow := { server_id := 1, ts := { utcSeconds := 0, offsetMinutes := 0 }, raw := mA }

/-- `mB` stored for room 1 at the later instant 10. -/
def pgRowB : PgRow := { server_id := 1, ts := { utcSeconds := 10, offsetMinutes := 0 }, raw := mB }

/-! ## Claim theorems -/

/-- C10, counterexample: the reads are NOT total — a history file whose
bytes are not valid UTF-8 makes both `get_messages` and `get_message_count`
raise.  The files are opened in text mode with `encoding="utf-8"` and the
loops catch only `IOError` and (in `get_messages`) `JSONDecodeError`;
iterating undecodable bytes raises `UnicodeDecodeError`, a `ValueError`,
which escapes both functions — here a file whose bad bytes follow one good
line. -/
theorem reads_raise_cex :
    get_messages_io (FileRead.undecodable [Line.valid mA]) (some 100)
        = Except.error PyError.unicodeDecodeError
    ∧ get_message_count_io (FileRead.undecodable [Line.valid mA])
        = Except.error PyError.unicodeDecodeError :=
  ⟨rfl, rfl⟩

/-- C10, amended: the file-based reads are total on every input EXCEPT a
file with invalid UTF-8 bytes: `get_messages` returns `[]` on a missing file
or `IOError` and skips malformed-JSON lines (reading a file equals reading
it with its undecodable lines removed), `get_message_count` returns 0 on a
missing file or `IOError`; but on a file whose bytes are not valid UTF-8,
both operations raise `UnicodeDecodeError` (a `ValueError`, not caught by
`except IOError`), whatever was decoded before the bad bytes. -/
theorem history_reads_amended :
    (∀ limit, get_messages_io FileRead.missing limit = Except.ok []
      ∧ get_messages_io FileRead.ioError limit = Except.ok [])
    ∧ (∀ (lines : List Line) (limit : Option Nat),
        get_messages_io (FileRead.decoded lines) limit
          = get_messages_io
              (FileRead.decoded (lines.filter (fun x => (parseLine x).isSome))) limit)
    ∧ get_message_count_io FileRead.missing = Except.ok 0
    ∧ get_message_count_io FileRead.ioError = Except.ok 0
    ∧ (∀ (read : List Line) (limit : Option Nat),
        get_messages_io (FileRead.undecodable read) limit
          = Except.error PyError.unicodeDecodeError)
    ∧ (∀ (read : List Line),
        get_message_count_io (FileRead.undecodable read)
          = Except.error PyError.unicodeDecodeError) := by
  refine ⟨fun limit => ⟨rfl, rfl⟩, ?_, rfl, rfl, fun read limit => rfl, fun read => rfl⟩
  intro lines limit
  have h : decodedMessages (lines.filter (fun x => (parseLine x).isSome))
      = decodedMessages lines := by
    simpa [decodedMessages] using filterMap_filter_isSome parseLine lines
  simp only [get_messages_io]
  cases limit with
  | none => simp [get_messages, h]
  | some l => simp [get_messages, h]

/-- C6, counterexample: querying the file store with `limit = 0` does NOT
return an empty sequence — with one stored message it returns that message,
because Python's `if limit and len(messages) > limit` treats `0` as falsy
and skips truncation. -/
theorem query_boundary_cex :
    get_messages (ReadResult.content [Line.valid mA]) (some 0) = [mA]
    ∧ [mA] ≠ ([] : List MessageData) := by decide

/-- C6, amended: for the file store, `limit = 0` returns the FULL stored
sequence (zero is treated as "no limit"), and a limit greater than the
stored count also returns the full stored sequence.  For the Postgres
store the claim holds as stated: `LIMIT 0` returns the empty sequence and
a limit at least the row count returns every row. -/
theorem query_boundary_amended :
    (∀ (lines : List Line),
      get_messages (ReadResult.content lines) (some 0) = decodedMessages lines)
    ∧ (∀ (lines : List Line) (l : Nat), (decodedMessages lines).length < l →
        get_messages (ReadResult.content lines) (some l) = decodedMessages lines)
    ∧ (∀ (table : List PgRow) (sid : Int), pg_get_messages table sid (some 0) = [])
    ∧ (∀ (table : List PgRow) (sid : Int) (l : Nat),
        (table.filter (fun r => r.server_id = sid)).length ≤ l →
        pg_get_messages table sid (some l)
          = (pgRows table sid).map (fun r => r.raw)) := by
  refine ⟨?_, ?_, ?_, ?_⟩
  · intro lines
    simp [get_messages]
  · intro lines l h
    have hcond : ¬(l ≠ 0 ∧ (decodedMessages lines).length > l) := by omega
    simp only [get_messages, if_neg hcond]
  · intro table sid
    rfl
  · intro table sid l h
    have hlen : (pgRows table sid).length ≤ l := by
      unfold pgRows
      rw [List.length_insertionSort]
      exact h
    show ((pgRows table sid).take l).map (fun r => r.raw)
        = (pgRows table sid).map (fun r => r.raw)
    rw [List.take_of_length_le hlen]

/-- Witness for C6's amended theorem at a one-message file with limit 5 and
a two-row table with limit 5. -/
theorem query_boundary_amended_witness :
    get_messages (ReadResult.content [Line.valid mA]) (some 5)
      = decodedMessages [Line.valid mA]
    ∧ pg_get_messages [pgRowA, pgRowB] 1 (some 5)
      = (pgRows [pgRowA, pgRowB] 1).map (fun r => r.raw) :=
  ⟨query_boundary_amended.2.1 [Line.valid mA] 5 (by decide),
   query_boundary_amended.2.2.2 [pgRowA, pgRowB] 1 5 (by decide)⟩

/-- C1, counterexample: (i) at `limit = 0` the file store returns more than
`limit` entries (Python's falsy-zero check skips truncation), violating "at
most `limit` entries" at that limit; (ii) with two stored rows and
`limit = 1`, the Postgres store returns the OLDEST entry `mA`
(`ORDER BY timestamp ASC LIMIT 1`), not the most recent one `mB`. -/
theorem query_limit_cex :
    ¬ ((get_messages (ReadResult.content [Line.valid mA]) (some 0)).length ≤ 0)
    ∧ pg_get_messages [pgRowA, pgRowB] 1 (some 1) = [mA]
    ∧ mA ≠ mB := by
  refine ⟨by decide, by decide, by decide⟩

/-- C1, amended: for the file store and every POSITIVE limit, the query
returns a suffix of the stored (oldest-to-newest) sequence — hence ordered
oldest-to-newest and consisting of the most recent entries — with at most
`limit` entries, exactly `limit` of them when more are stored, and the whole
sequence otherwise.  The Postgres store instead returns the first `limit`
rows of the ascending-timestamp ordering — the OLDEST `limit` entries,
sorted oldest-to-newest, at most `limit` of them. -/
theorem query_limit_amended :
    (∀ (lines : List Line) (l : Nat), 1 ≤ l →
      get_messages (ReadResult.content lines) (some l) <:+ decodedMessages lines
      ∧ (get_messages (ReadResult.content lines) (some l)).length ≤ l
      ∧ ((decodedMessages lines).length > l →
          (get_messages (ReadResult.content lines) (some l)).length = l)
      ∧ ((decodedMessages lines).length ≤ l →
          get_messages (ReadResult.content lines) (some l) = decodedMessages lines))
    ∧ (∀ (table : List PgRow) (sid : Int) (l : Nat),
      pg_get_messages table sid (some l) = ((pgRows table sid).take l).map (fun r => r.raw)
      ∧ (pg_get_messages table sid (some l)).length ≤ l
      ∧ List.Sorted pgLe ((pgRows table sid).take l)) := by
  constructor
  · intro lines l hl
    by_cases hlen : (decodedMessages lines).length > l
    · have hres : get_messages (ReadResult.content lines) (some l)
          = (decodedMessages lines).drop ((decodedMessages lines).length - l) := by
        simp only [get_messages]
        rw [if_pos ⟨by omega, hlen⟩]
      rw [hres]
      refine ⟨List.drop_suffix _ _, ?_, ?_, ?_⟩
      · rw [List.length_drop]; omega
      · intro _; rw [List.length_drop]; omega
      · intro hle; omega
    · have hres : get_messages (ReadResult.content lines) (some l)
          = decodedMessages lines := by
        simp only [get_messages]
        rw [if_neg (by tauto)]
      rw [hres]
      exact ⟨List.suffix_refl _, by omega, fun h => absurd h hlen, fun _ => rfl⟩
  · intro table sid l
    refine ⟨rfl, ?_, ?_⟩
    · show (((pgRows table sid).take l).map (fun r => r.raw)).length ≤ l
      rw [List.length_map, List.length_take]
      omega
    · exact List.Pairwise.sublist (List.take_sublist _ _) (List.sorted_insertionSort pgLe _)

/-- Witness for C1's amended theorem: a two-message file queried with
limit 1 yields a suffix of length exactly 1. -/
theorem query_limit_amended_witness :
    get_messages (ReadResult.content [Line.valid mA, Line.valid mB]) (some 1)
      <:+ decodedMessages [Line.valid mA, Line.valid mB]
    ∧ (get_messages (ReadResult.content [Line.valid mA, Line.valid mB]) (some 1)).length = 1 :=
  ⟨(query_limit_amended.1 [Line.valid mA, Line.valid mB] 1 (by decide)).1,
   (query_limit_amended.1 [Line.valid mA, Line.valid mB] 1 (by decide)).2.2.1 (by decide)⟩

/-- C2, counterexample: saving the message `mC`, which carries the non-UTC
timestamp `tsPlus5` (offset +05:00), and querying the room's history returns
`mC` with that timestamp verbatim: the stored timestamp differs from its UTC
normalization, so the "timestamp is normalized to UTC" part of the claim
fails — `save_message` only fills in a missing timestamp and never converts
a supplied one. -/
theorem roundtrip_cex :
    (get_messages (ReadResult.content (save_message 99 [] mC)) none).getLast? = some mC
    ∧ mC.timestamp = some tsPlus5
    ∧ some (normalizeUTC tsPlus5) ≠ some tsPlus5
    ∧ ¬ tsPlus5.isUTC := by decide

/-- C2, amended, per store.  File-based store: saving Event `m` for a room
and then querying that room's history (with any positive limit) returns `m`
as the latest entry with all fields (`type`, `serverId`, `username`, `text`,
`event`) preserved and the timestamp preserved VERBATIM when supplied — not
normalized to UTC — with the current time (in UTC) assigned only when the
timestamp was absent.  Postgres store: the saved `raw_data` payload is `m`
verbatim — no field changed and NO timestamp assigned to the payload when
absent — and querying with no limit, or with any limit at least the room's
row count, returns `m` among the results (a smaller limit can cut the newest
row, since `LIMIT` applies after the ascending-timestamp ordering); the
timestamp normalization and current-time default apply only to the separate
`timestamp` ordering column. -/
theorem roundtrip_amended :
    (∀ (file : List Line) (m : MessageData) (nowSec : Int) (l : Nat), 1 ≤ l →
      (get_messages (ReadResult.content (save_message nowSec file m)) (some l)).getLast?
          = some (withDefaultTimestamp nowSec m)
      ∧ (withDefaultTimestamp nowSec m).type = m.type
      ∧ (withDefaultTimestamp nowSec m).serverId = m.serverId
      ∧ (withDefaultTimestamp nowSec m).username = m.username
      ∧ (withDefaultTimestamp nowSec m).text = m.text
      ∧ (withDefaultTimestamp nowSec m).event = m.event
      ∧ (withDefaultTimestamp nowSec m).timestamp
          = some (m.timestamp.getD { utcSeconds := nowSec, offsetMinutes := 0 }))
    ∧ (∀ (table : List PgRow) (sid : Int) (m : MessageData) (nowSec : Int),
      m ∈ pg_get_messages (pg_save_message nowSec table sid m) sid none
      ∧ (∀ (l : Nat),
          ((pg_save_message nowSec table sid m).filter
              (fun r => r.server_id = sid)).length ≤ l →
          m ∈ pg_get_messages (pg_save_message nowSec table sid m) sid (some l))
      ∧ (savedPgRow nowSec sid m).raw = m
      ∧ (savedPgRow nowSec sid m).ts
          = m.timestamp.getD { utcSeconds := nowSec, offsetMinutes := 0 }) := by
  constructor
  · intro file m nowSec l hl
    have hmsgs : decodedMessages (save_message nowSec file m)
        = decodedMessages file ++ [withDefaultTimestamp nowSec m] := by
      simp [save_message, decodedMessages, parseLine]
    have hlast : (decodedMessages (save_message nowSec file m)).getLast?
        = some (withDefaultTimestamp nowSec m) := by
      rw [hmsgs]
      exact List.getLast?_concat _
    refine ⟨?_, ?_⟩
    · by_cases hlen : (decodedMessages (save_message nowSec file m)).length > l
      · have hres : get_messages (ReadResult.content (save_message nowSec file m)) (some l)
            = (decodedMessages (save_message nowSec file m)).drop
                ((decodedMessages (save_message nowSec file m)).length - l) := by
          simp only [get_messages]
          rw [if_pos ⟨by omega, hlen⟩]
        rw [hres, getLast?_drop_of_lt _ _ (by omega), hlast]
      · have hres : get_messages (ReadResult.content (save_message nowSec file m)) (some l)
            = decodedMessages (save_message nowSec file m) := by
          simp only [get_messages]
          rw [if_neg (by tauto)]
        rw [hres, hlast]
    · by_cases ht : m.timestamp = none
      · simp [withDefaultTimestamp, ht]
      · cases htt : m.timestamp with
        | none => exact absurd htt ht
        | some t => simp [withDefaultTimestamp, htt]
  · intro table sid m nowSec
    have hmemrow : savedPgRow nowSec sid m
        ∈ (pg_save_message nowSec table sid m).filter (fun r => r.server_id = sid) := by
      simp [pg_save_message, savedPgRow, List.filter_append]
    have hmemsort : savedPgRow nowSec sid m
        ∈ pgRows (pg_save_message nowSec table sid m) sid := by
      unfold pgRows
      rw [List.mem_insertionSort]
      exact hmemrow
    refine ⟨?_, ?_, rfl, rfl⟩
    · show m ∈ (pgRows (pg_save_message nowSec table sid m) sid).map (fun r => r.raw)
      exact List.mem_map.mpr ⟨savedPgRow nowSec sid m, hmemsort, rfl⟩
    · intro l hl
      have hlen : (pgRows (pg_save_message nowSec table sid m) sid).length ≤ l := by
        unfold pgRows
        rw [List.length_insertionSort]
        exact hl
      show m ∈ ((pgRows (pg_save_message nowSec table sid m) sid).take l).map (fun r => r.raw)
      rw [List.take_of_length_le hlen]
      exact List.mem_map.mpr ⟨savedPgRow nowSec sid m, hmemsort, rfl⟩

/-- Witness for C2's amended theorem: `mA` saved into an empty file at
instant 7 and queried with the endpoint's default-style limit 50; and the
timestamp-less `mNoTs` saved into an empty Postgres table round-trips
verbatim — returned with its timestamp still absent. -/
theorem roundtrip_amended_witness :
    (get_messages (ReadResult.content (save_message 7 [] mA)) (some 50)).getLast?
        = some (withDefaultTimestamp 7 mA)
    ∧ mNoTs ∈ pg_get_messages (pg_save_message 7 [] 1 mNoTs) 1 (some 50)
    ∧ mNoTs.timestamp = none :=
  ⟨(roundtrip_amended.1 [] mA 7 50 (by decide)).1,
   (roundtrip_amended.2 [] 1 mNoTs 7).2.1 50 (by decide),
   rfl⟩

/-- Helper for C8: the retry loop entered with counter value `a`, when the
next `k` init attempts fail and the one after succeeds, performs exactly the
sleeps `min(5 * (a + i + 1), 30)` for `i = 0 .. k - 1`. -/
theorem init_retry_shifted (storeFails : Nat → Bool) :
    ∀ (k fuel a : Nat),
      (∀ i, i < k → storeFails (a + i) = true) → storeFails (a + k) = false → k < fuel →
      init_retry storeFails fuel a
        = some ((List.range k).map (fun i => min (5 * (a + i + 1)) 30)) := by
  intro k
  induction k with
  | zero =>
    intro fuel a _ hsucc hfuel
    cases fuel with
    | zero => omega
    | succ f =>
      rw [Nat.add_zero] at hsucc
      simp only [init_retry, hsucc]
      simp
  | succ k ih =>
    intro fuel a hfail hsucc hfuel
    cases fuel with
    | zero => omega
    | succ f =>
      have h0 : storeFails a = true := by
        have := hfail 0 (by omega)
        simpa using this
      have hrec := ih f (a + 1)
        (fun i hi => by
          have := hfail (i + 1) (by omega)
          have harith : a + (i + 1) = a + 1 + i := by omega
          rwa [harith] at this)
        (by
          have harith : a + 1 + k = a + (k + 1) := by omega
          rw [harith]
          exact hsucc)
        (by omega)
      simp only [init_retry, h0, if_true, hrec]
      rw [List.range_succ_eq_map, List.map_cons, List.map_map]
      refine congrArg some (List.cons_eq_cons.mpr ⟨by omega, ?_⟩)
      apply List.map_congr_left
      intro i _
      simp only [Function.comp_apply]
      omega

/-- C8: at History Worker startup, when the first `k` store-init attempts
fail and attempt `k + 1` succeeds, the worker performs exactly `k` sleeps and
the delay before retry number `j` (counting from 1) is `min(5 * j, 30)`
seconds — linear in the attempt count, capped at 30; and when init never
succeeds the loop never exits within any iteration bound (it retries
indefinitely). -/
theorem init_backoff :
    (∀ (storeFails : Nat → Bool) (k fuel : Nat),
        (∀ i, i < k → storeFails i = true) → storeFails k = false → k < fuel →
        init_retry storeFails fuel 0
          = some ((List.range k).map (fun i => min (5 * (i + 1)) 30)))
    ∧ (∀ (storeFails : Nat → Bool),
        (∀ i, storeFails i = true) → ∀ fuel a, init_retry storeFails fuel a = none) := by
  constructor
  · intro sf k fuel hfail hsucc hfuel
    have h := init_retry_shifted sf k fuel 0
      (fun i hi => by simpa using hfail i hi) (by simpa using hsucc) hfuel
    simpa using h
  · intro sf hall fuel
    induction fuel with
    | zero => intro a; rfl
    | succ f ih =>
      intro a
      simp only [init_retry, hall a, if_true, ih (a + 1)]

/-- Witness for C8: seven failing attempts then success gives the delay
schedule 5, 10, 15, 20, 25, 30, 30 — linear growth capped at 30. -/
theorem init_backoff_witness :
    init_retry (fun i => decide (i < 7)) 8 0 = some [5, 10, 15, 20, 25, 30, 30] :=
  (init_backoff.1 (fun i => decide (i < 7)) 7 8
      (fun i hi => decide_eq_true hi) (by decide) (by decide)).trans (by decide)

/-- C3: the History Worker's discovery handling is idempotent.  After any
sequence of discovery notifications whose subjects include one that parses
to room id `R`, the worker's `active_room_subs` mapping holds exactly one
subscription entry for `R`; and a notification for an already-mapped `R`
leaves the state completely unchanged. -/
theorem discovery_idempotent :
    (∀ (subjects : List String) (R : Int),
        (∃ s, s ∈ subjects ∧ parseWatchSubject s = some R) →
        ((subjects.foldl watch_handler initWorkerState).subs.map Prod.fst).count R = 1)
    ∧ (∀ (st : WorkerState) (s : String) (R : Int),
        parseWatchSubject s = some R → R ∈ st.subs.map Prod.fst →
        watch_handler st s = st) := by
  constructor
  · intro subjects R hex
    have hmem : R ∈ subKeys (subjects.foldl watch_handler initWorkerState) :=
      mem_subKeys_foldl_of_parse subjects initWorkerState R hex
    have hnodup : (subKeys (subjects.foldl watch_handler initWorkerState)).Nodup :=
      subKeys_nodup_foldl subjects initWorkerState (by simp [subKeys, initWorkerState])
    exact List.count_eq_one_of_mem hnodup hmem
  · intro st s R hp hmem
    rw [watch_handler_parsed st s R hp, if_pos hmem]

/-- Witness for C3: the same discovery ping for room 5 delivered twice
leaves exactly one subscription entry for room 5. -/
theorem discovery_idempotent_witness :
    ((["chat.history.watch.5", "chat.history.watch.5"].foldl watch_handler
        initWorkerState).subs.map Prod.fst).count 5 = 1 :=
  discovery_idempotent.1 ["chat.history.watch.5", "chat.history.watch.5"] 5
    ⟨"chat.history.watch.5", by decide, by decide⟩

/-- C4: the persistence handler is NOT total: on the payload `b"5"` — valid
JSON, hence past the decode guard, but not a structured (dict) payload —
`data.get("serverId")` raises an uncaught `AttributeError`, whichever way
the store behaves, contradicting "the handler never raises for any input".
The remaining conjuncts evaluate the handler on the claim's other cases,
which do behave as claimed: undecodable payloads and dict payloads with a
missing or non-integer `serverId` are skipped without raising, and a store
append failure is swallowed (`saveFailed`, result still `ok`). -/
theorem handler_nonobject_raises :
    handler true (Payload.json (JValue.jint 5)) = Except.error PyError.attributeError
    ∧ handler false (Payload.json (JValue.jint 5)) = Except.error PyError.attributeError
    ∧ (∀ b, handler b Payload.notJson = Except.ok HandlerOutcome.skippedDecode)
    ∧ (∀ b, handler b (Payload.json (JValue.jobj [("username", JValue.jstr "alice")]))
        = Except.ok HandlerOutcome.skippedServerId)
    ∧ (∀ b, handler b (Payload.json (JValue.jobj [("serverId", JValue.jstr "1")]))
        = Except.ok HandlerOutcome.skippedServerId)
    ∧ handler false (Payload.json (JValue.jobj [("serverId", JValue.jint 1)]))
        = Except.ok HandlerOutcome.saveFailed
    ∧ handler true (Payload.json (JValue.jobj [("serverId", JValue.jint 1)]))
        = Except.ok HandlerOutcome.saved :=
  ⟨rfl, rfl, fun _ => rfl, fun _ => rfl, fun _ => rfl, rfl, rfl⟩

/-- C5: whenever the requested room is absent from the directory, or the
`username` query parameter is missing or blank after trimming, the gateway
session's effect trace is exactly the room lookup followed by a close with
the policy-violation code 1008 — no accept, no bus or store side effect,
whatever the rest of the session would have done. -/
theorem reject_no_side_effects :
    ∀ (roomFound : Bool) (p : Option String) (rest : String → List Effect),
      (roomFound = false ∨ p = none ∨ (∃ u, p = some u ∧ pyStrip u = "")) →
      websocket_endpoint roomFound p rest = [Effect.roomLookup, Effect.close 1008] := by
  intro roomFound p rest h
  rcases h with h | h | ⟨u, hu, hblank⟩
  · subst h
    rfl
  · subst h
    cases roomFound <;> rfl
  · subst hu
    cases roomFound
    · rfl
    · simp [websocket_endpoint, validate, hblank]

/-- Witness for C5: an absent room with a well-formed username still yields
only the lookup and the 1008 close, even though the abstracted continuation
would have published to the bus. -/
theorem reject_no_side_effects_witness :
    websocket_endpoint false (some "alice") (fun _ => [Effect.busPublish "chat.1"])
      = [Effect.roomLookup, Effect.close 1008] :=
  reject_no_side_effects false (some "alice") (fun _ => [Effect.busPublish "chat.1"])
    (Or.inl rfl)

/-- C7: for every fault assignment to the four teardown blocks, the Closing
sequence attempts all four steps — publish leave, flush with bounded wait,
unsubscribe, cancel the sender — in exactly that order, and returns normally
(`Except.ok`, never an error): each block's failure is caught by its own
`try/except` and does not stop the later blocks. -/
theorem closing_runs_all_steps :
    ∀ (pf ff uf cf : Bool),
      closing_teardown pf ff uf cf
        = Except.ok [CloseStep.publishLeave, CloseStep.flushBus,
            CloseStep.unsubscribeRoom, CloseStep.cancelSender] := by
  intro pf ff uf cf
  cases pf <;> cases ff <;> cases uf <;> cases cf <;> rfl

/-- C9, counterexample: the `ChatMessage` model applies no trimming to
`username` — constructing a system event with username `" alice "` keeps
the surrounding whitespace, though its trimmed form `"alice"` differs. -/
theorem event_trim_cex :
    (mkChatMessage "system" 1 (some " alice ") none (some "join") none ts0).username
        = some " alice "
    ∧ pyStrip " alice " = "alice"
    ∧ some " alice " ≠ some "alice" := by decide

/-- C9, amended: the `text` field is trimmed and empty-normalized by the
model's validator, but the `username` field is not transformed by the model;
instead the gateway trims the username query parameter (and rejects blank
ones) before constructing events, so every gateway-constructed join or
message event carries the trimmed, nonempty username, and its text is the
validator-trimmed client text. -/
theorem event_trim_amended :
    ∀ (roomFound : Bool) (p u : String) (sid : Int) (now : Timestamp) (txt : String),
      validate roomFound (some p) = ValidateResult.proceed u →
      u = pyStrip p
      ∧ u ≠ ""
      ∧ (mkChatMessage "system" sid (some u) none (some "join") none now).username
          = some (pyStrip p)
      ∧ (mkChatMessage "message" sid (some u) (some txt) none none now).username
          = some (pyStrip p)
      ∧ (mkChatMessage "message" sid (some u) (some txt) none none now).text
          = (if pyStrip txt = "" then none else some (pyStrip txt))
      ∧ (mkChatMessage "system" sid (some u) none (some "join") none now).text = none := by
  intro roomFound p u sid now txt hv
  cases roomFound with
  | false => exact absurd hv (by simp [validate])
  | true =>
    by_cases hb : pyStrip p = ""
    · exact absurd hv (by simp [validate, hb])
    · have hu : u = pyStrip p := by
        simp [validate, hb] at hv
        exact hv.symm
      subst hu
      refine ⟨rfl, hb, rfl, rfl, ?_, rfl⟩
      simp [mkChatMessage, trim_text]

/-- Witness for C9's amended theorem: the parameter `" alice "` passes
validation as `"alice"`, and a message event built from client text
`" hi "` carries the validator-trimmed text. -/
theorem event_trim_amended_witness :
    ("alice" : String) = pyStrip " alice "
    ∧ ("alice" : String) ≠ ""
    ∧ (mkChatMessage "message" 1 (some "alice") (some " hi ") none none ts0).text
        = (if pyStrip " hi " = "" then none else some (pyStrip " hi ")) := by
  have h := event_trim_amended true " alice " "alice" 1 ts0 " hi " (by decide)
  exact ⟨h.1, h.2.1, h.2.2.2.2.1⟩
